import Mathlib

/-!
Verification of the ERP attendance bot (src/index.js, final variant, with the
anchor-match date locator of the earlier variant also embedded).  Portal text
is modelled as lists of characters; the JavaScript string operations used by
the script (trim, includes, indexOf, split, regexp character-class tests) are
translated into executable Lean definitions, and the specified properties of
the legend parser, date-column locator, attendance-table scanner and run
orchestrator are proved about them.
-/

namespace AttendanceBot

/-- Whitespace characters recognised by the model of JavaScript trim and of
the regexp class backslash-s, restricted to the characters that can occur in
the portal's text. -/
def isWs (c : Char) : Bool :=
  c == ' ' || c == '\t' || c == '\n' || c == '\r' || c == '\x0b' || c == '\x0c'

/-- Uppercase-letter test, the regexp character class A to Z used on subject
codes in src/index.js line 123. -/
def isUpper (c : Char) : Bool := 'A' ≤ c && c ≤ 'Z'

/-- Decimal-digit test, the regexp class backslash-d of src/index.js line 123. -/
def isDigitCh (c : Char) : Bool := '0' ≤ c && c ≤ '9'

/-- Model of JavaScript String.prototype.trim: drop whitespace from both ends. -/
def trim (s : List Char) : List Char :=
  ((s.dropWhile isWs).reverse.dropWhile isWs).reverse

/-- Auxiliary search for the model of JavaScript String.prototype.indexOf:
scan the haystack left to right and return the first offset at which the
needle is a prefix of the rest. -/
def idxOfSubAux (needle : List Char) : Nat → List Char → Option Nat
  | i, [] => if needle.isEmpty then some i else none
  | i, c :: rest =>
    if needle.isPrefixOf (c :: rest) then some i else idxOfSubAux needle (i + 1) rest

/-- Model of JavaScript String.prototype.indexOf, returning none instead of -1. -/
def idxOfSub (hay needle : List Char) : Option Nat := idxOfSubAux needle 0 hay

/-- Model of JavaScript String.prototype.includes: substring containment. -/
def strContains (hay needle : List Char) : Bool := (idxOfSub hay needle).isSome

/-- Absence classifier of src/index.js line 186: a status cell is classified
absent exactly when its text contains the letter A (cellText.includes). -/
def classifyAbsent (cellText : List Char) : Bool := strContains cellText ['A']

/-- Model of JavaScript String.prototype.split on a newline: cut the text at
every newline character, keeping empty pieces, as in src/index.js line 116. -/
def splitNl : List Char → List (List Char)
  | [] => [[]]
  | c :: rest =>
    let r := splitNl rest
    if c == '\n' then [] :: r else (c :: r.headD []) :: r.tail

/-- Separator searched for by the legend parser: space, hyphen, space. -/
def legendSep : List Char := [' ', '-', ' ']

/-- One legend line, src/index.js lines 118 to 126: find the first space,
hyphen, space; require its offset strictly between 0 and 20; split into code
and name, both trimmed; accept only codes that are nonempty, contain no
whitespace, contain an uppercase letter and contain a digit. -/
def parseLegendLine (line : List Char) : Option (List Char × List Char) :=
  let text := trim line
  match idxOfSub text legendSep with
  | none => none
  | some i =>
    if 0 < i && i < 20 then
      let code := trim (text.take i)
      let name := trim (text.drop (i + 3))
      if !code.isEmpty && !code.any isWs && code.any isUpper && code.any isDigitCh then
        some (code, name)
      else none
    else none

/-- Insert into the association-list model of the JavaScript object map,
overwriting in place on a duplicate key and appending otherwise. -/
def mapInsert (m : List (List Char × List Char)) (k v : List Char) :
    List (List Char × List Char) :=
  if m.any (fun p => p.1 == k) then
    m.map (fun p => if p.1 == k then (k, v) else p)
  else m ++ [(k, v)]

/-- Lookup in the association-list model of the JavaScript object map. -/
def mapLookup (m : List (List Char × List Char)) (k : List Char) :
    Option (List Char) :=
  (m.find? (fun p => p.1 == k)).map (fun p => p.2)

/-- Legend contribution of one table cell, src/index.js lines 115 to 128:
trim the cell text, split it on newlines, and fold every accepted line into
the map. -/
def legendCell (m : List (List Char × List Char)) (cellText : List Char) :
    List (List Char × List Char) :=
  (splitNl (trim cellText)).foldl
    (fun acc line =>
      match parseLegendLine line with
      | some (c, n) => mapInsert acc c n
      | none => acc) m

/-- Legend parser of src/index.js lines 113 to 130: fold all table cells over
an initially empty map. -/
def legendParse (cells : List (List Char)) : List (List Char × List Char) :=
  cells.foldl legendCell []

/-- Collapse every whitespace run into a single space; the flag records
whether the previous character was whitespace. -/
def collapseWsAux : Bool → List Char → List Char
  | _, [] => []
  | prevWs, c :: rest =>
    if isWs c then
      if prevWs then collapseWsAux true rest else ' ' :: collapseWsAux true rest
    else c :: collapseWsAux false rest

/-- Whitespace normalization applied to stored header texts: JavaScript trim
followed by replacing each whitespace run with one space, src/index.js
line 145. -/
def normalizeWs (s : List Char) : List Char := collapseWsAux false (trim s)

/-- First contiguous digit run of a text, the regexp digit-plus match of
src/index.js line 156. -/
def firstDigitRun (s : List Char) : Option (List Char) :=
  match s.dropWhile (fun c => !isDigitCh c) with
  | [] => none
  | c :: rest => some ((c :: rest).takeWhile isDigitCh)

/-- Decimal value of a digit run, the model of JavaScript parseInt on the
regexp match. -/
def digitsToNat (ds : List Char) : Nat :=
  ds.foldl (fun acc c => acc * 10 + (c.toNat - '0'.toNat)) 0

/-- First number appearing in a header text, if any. -/
def firstNumber (s : List Char) : Option Nat := (firstDigitRun s).map digitsToNat

/-- Date-column locator of src/index.js lines 149 to 163, first-number
strategy: scan the normalized header texts left to right and return the index
and stored text of the first header whose first number equals the day. -/
def locateFirstNum (d : Nat) : List (List Char) → Option (Nat × List Char)
  | [] => none
  | h :: t =>
    let txt := normalizeWs h
    if firstNumber txt = some d then some (0, txt)
    else (locateFirstNum d t).map (fun r => (r.1 + 1, r.2))

/-- Decimal digits of the day number, the model of toString on getDate. -/
def natDigits (d : Nat) : List Char := Nat.toDigits 10 d

/-- Word-character test backing the regexp word boundary. -/
def isWordChar (c : Char) : Bool :=
  ('A' ≤ c && c ≤ 'Z') || ('a' ≤ c && c ≤ 'z') || isDigitCh c || c == '_'

/-- Anchor test of src/unnamed/part_000 line 73: caret, whitespace star, the
day digits, then a word boundary, applied to the trimmed header text. -/
def anchorDayTest (d : Nat) (s : List Char) : Bool :=
  let rest := s.dropWhile isWs
  (natDigits d).isPrefixOf rest &&
    (match rest.drop (natDigits d).length with
     | [] => true
     | c :: _ => !isWordChar c)

/-- Date-column locator of src/unnamed/part_000 lines 67 to 78, anchor
strategy: scan the trimmed header texts left to right; the stored text is
whitespace-normalized on return. -/
def locateAnchor (d : Nat) : List (List Char) → Option (Nat × List Char)
  | [] => none
  | h :: t =>
    if anchorDayTest d (trim h) then some (0, normalizeWs (trim h))
    else (locateAnchor d t).map (fun r => (r.1 + 1, r.2))

/-- Resolution of the display name, src/index.js line 187: a JavaScript
falsy lookup falls back to the bare code both when the code is missing from
the legend and when it maps to the empty string. -/
def lookupOr (m : List (List Char × List Char)) (code : List Char) : List Char :=
  match mapLookup m code with
  | some v => if v.isEmpty then code else v
  | none => code

/-- Stoplist guard of src/index.js line 181: the trimmed cell-zero text is
rejected when empty or containing Total, Legend or G dot as a substring. -/
def stoplisted (code : List Char) : Bool :=
  code.isEmpty || strContains code "Total".data ||
    strContains code "Legend".data || strContains code "G.".data

/-- One data row of the attendance-table scanner, src/index.js lines 176 to
190: skip ragged rows, skip stoplisted or empty codes, then classify the
today-column cell and emit the code with its resolved display name. -/
def scanRow (legend : List (List Char × List Char)) (todayColIndex : Nat)
    (cells : List (List Char)) : Option (List Char × List Char) :=
  if cells.length ≤ todayColIndex then none
  else
    let code := trim (cells.getD 0 [])
    if stoplisted code then none
    else
      let cellText := trim (cells.getD todayColIndex [])
      if classifyAbsent cellText then some (code, lookupOr legend code)
      else none

/-- Attendance-table scanner over the data rows, collecting the absence
records in table row order. -/
def scanTable (legend : List (List Char × List Char)) (todayColIndex : Nat)
    (rows : List (List (List Char))) : List (List Char × List Char) :=
  rows.filterMap (scanRow legend todayColIndex)

/-- Stages of the run at which the portal interaction of src/index.js can
throw; the notification sends are modelled by their own success flags. -/
inductive Stage
  | login
  | navigate
  | selectMonth
  | parseLegend
  | locateColumn
  | scanRows
  | screenshot
deriving DecidableEq

/-- Abstract input and fault model of one run: the parsed page content the
browser would deliver, an optional injected exception with its message, and
the success of each notification transport call. -/
structure Env where
  failAt : Option (Stage × List Char)
  textSendOk : Bool
  photoSendOk : Bool
  errSendOk : Bool
  msgFailBody : List Char
  photoFailBody : List Char
  legendCells : List (List Char)
  headerCells : List (List Char)
  rows : List (List (List Char))
  today : Nat
  timeStr : List Char
deriving DecidableEq

/-- Observable outcome of a run: process exit code, the messages and photos
actually delivered, the number of photo-send and error-notification
attempts, whether the screenshot was taken, whether the browser was closed
before process termination, and the exception that reached the catch block. -/
structure RunResult where
  exitCode : Nat
  sentMessages : List (List Char)
  photoAttempts : Nat
  sentPhotos : Nat
  errNotifyAttempts : Nat
  screenshotTaken : Bool
  browserClosed : Bool
  caughtError : Option (List Char)
deriving DecidableEq

/-- Error notification text of src/index.js line 224. -/
def errorMessage (desc time : List Char) : List Char :=
  "🔴 <b>Bot Error!</b>\n\n<code>".data ++ desc ++ "</code>\n\n⏰ ".data ++ time

/-- All-present notification text of src/index.js line 203. -/
def allPresentMessage (hdr time : List Char) : List Char :=
  "✅ <b>All Present!</b>\n\n📅 <b>Date:</b> ".data ++ hdr ++
    "\n🕐 <b>Checked:</b> ".data ++ time ++
    "\n\nKoi bhi subject mein absent nahi ho 🎉".data

/-- One absence entry as pushed in src/index.js line 188. -/
def absenceLine (r : List Char × List Char) : List Char :=
  r.1 ++ " – ".data ++ r.2

/-- Bulleted newline join of the absence entries, src/index.js line 212. -/
def bulletJoin : List (List Char) → List Char
  | [] => []
  | [x] => "• ".data ++ x
  | x :: y :: rest => "• ".data ++ x ++ ['\n'] ++ bulletJoin (y :: rest)

/-- Absence alert text of src/index.js lines 205 to 212. -/
def alertMessage (hdr time : List Char)
    (absents : List (List Char × List Char)) : List Char :=
  "⚠️ <b>ATTENDANCE ALERT</b> 🚨\n\n📅 <b>Date:</b> ".data ++ hdr ++
    "\n🕐 <b>Checked:</b> ".data ++ time ++
    "\n\n❌ <b>Absent in ".data ++ natDigits absents.length ++
    " subject(s):</b>\n".data ++ bulletJoin (absents.map absenceLine)

/-- Error description thrown by the text transport helper, src/index.js
line 243. -/
def sendMsgFailDesc (env : Env) : List Char :=
  "sendMessage failed: ".data ++ env.msgFailBody

/-- Error description thrown by the photo transport helper, src/index.js
line 255. -/
def sendPhotoFailDesc (env : Env) : List Char :=
  "sendPhoto failed: ".data ++ env.photoFailBody

/-- Failure path of src/index.js lines 220 to 229: the catch block attempts
exactly one error notification and swallows its failure, then process.exit
with code one terminates the process at once, so the finally clause never
runs and the browser is not closed on this path. -/
def failResult (env : Env) (msgs : List (List Char)) (pAtt pSent : Nat)
    (shot : Bool) (desc : List Char) : RunResult :=
  { exitCode := 1
    sentMessages :=
      msgs ++ (if env.errSendOk then [errorMessage desc env.timeStr] else [])
    photoAttempts := pAtt
    sentPhotos := pSent
    errNotifyAttempts := 1
    screenshotTaken := shot
    browserClosed := false
    caughtError := some desc }

/-- Normal termination: the try block (or the benign early return) finishes,
the finally clause closes the browser, and the process exits with code zero. -/
def okResult (msgs : List (List Char)) (pAtt pSent : Nat) (shot : Bool) :
    RunResult :=
  { exitCode := 0
    sentMessages := msgs
    photoAttempts := pAtt
    sentPhotos := pSent
    errNotifyAttempts := 0
    screenshotTaken := shot
    browserClosed := true
    caughtError := none }

/-- Notification phase of src/index.js lines 198 to 218: on an empty absence
list send the all-present text; otherwise send the alert text and, only
after it succeeded, attempt the photo send; a rejected transport call throws
into the catch block. -/
def notifyPhase (env : Env) (hdrText : List Char)
    (absents : List (List Char × List Char)) : RunResult :=
  if absents.isEmpty then
    if env.textSendOk then
      okResult [allPresentMessage hdrText env.timeStr] 0 0 true
    else failResult env [] 0 0 true (sendMsgFailDesc env)
  else
    if env.textSendOk then
      if env.photoSendOk then
        okResult [alertMessage hdrText env.timeStr absents] 1 1 true
      else
        failResult env [alertMessage hdrText env.timeStr absents] 1 0 true
          (sendPhotoFailDesc env)
    else failResult env [] 0 0 true (sendMsgFailDesc env)

/-- Run orchestrator of src/index.js lines 6 to 230: an exception injected up
to the column search aborts before any output; finding no column for today
returns benignly before the scan and the screenshot; otherwise the data rows
after the header row are scanned, the screenshot is taken and the
notification phase runs. -/
def run (env : Env) : RunResult :=
  match env.failAt with
  | some (.login, m) => failResult env [] 0 0 false m
  | some (.navigate, m) => failResult env [] 0 0 false m
  | some (.selectMonth, m) => failResult env [] 0 0 false m
  | some (.parseLegend, m) => failResult env [] 0 0 false m
  | some (.locateColumn, m) => failResult env [] 0 0 false m
  | rest =>
    let legend := legendParse env.legendCells
    match locateFirstNum env.today env.headerCells with
    | none => okResult [] 0 0 false
    | some (idx, hdrText) =>
      match rest with
      | some (.scanRows, m) => failResult env [] 0 0 false m
      | rest2 =>
        let absents := scanTable legend idx (env.rows.drop 1)
        match rest2 with
        | some (.screenshot, m) => failResult env [] 0 0 false m
        | _ => notifyPhase env hdrText absents

theorem idxOfSubAux_isSome (needle : List Char) (hay : List Char) (i : Nat) :
    (idxOfSubAux needle i hay).isSome = true ↔ needle <:+: hay := by
  induction hay generalizing i with
  | nil =>
    by_cases h : needle.isEmpty
    · simp [idxOfSubAux, h, List.isEmpty_iff.mp h]
    · simp only [idxOfSubAux, if_neg h, Option.isSome_none, List.infix_nil]
      simp only [List.isEmpty_iff] at h
      simp [h]
  | cons c rest ih =>
    by_cases hp : needle.isPrefixOf (c :: rest)
    · simp only [idxOfSubAux, if_pos hp, Option.isSome_some, true_iff]
      exact (List.isPrefixOf_iff_prefix.mp hp).isInfix
    · simp only [idxOfSubAux, if_neg hp, ih, List.infix_cons_iff]
      constructor
      · exact Or.inr
      · rintro (hpre | hinf)
        · exact absurd (List.isPrefixOf_iff_prefix.mpr hpre) hp
        · exact hinf

theorem strContains_iff (hay needle : List Char) :
    strContains hay needle = true ↔ needle <:+: hay :=
  idxOfSubAux_isSome needle hay 0

theorem singleton_infix_iff_mem (a : Char) (l : List Char) :
    [a] <:+: l ↔ a ∈ l := by
  constructor
  · intro h
    exact List.singleton_sublist.mp h.sublist
  · intro h
    obtain ⟨s, t, rfl⟩ := List.append_of_mem h
    exact ⟨s, t, by simp⟩

/-- C1: the absence classifier returns true if and only if the status-cell
text contains the uppercase letter A; in particular it maps P, PP and the
dash to false, and A and AA to true, and never returns true for text not
containing A. -/
theorem c1_absence_classifier :
    (∀ t : List Char, classifyAbsent t = true ↔ 'A' ∈ t) ∧
    classifyAbsent "P".data = false ∧
    classifyAbsent "PP".data = false ∧
    classifyAbsent "A".data = true ∧
    classifyAbsent "AA".data = true ∧
    classifyAbsent "-".data = false := by
  refine ⟨fun t => ?_, by decide, by decide, by decide, by decide, by decide⟩
  rw [classifyAbsent, strContains_iff, singleton_infix_iff_mem]

theorem parseLegendLine_isSome (line : List Char) :
    (parseLegendLine line).isSome = true ↔
      ∃ i, idxOfSub (trim line) legendSep = some i ∧ 0 < i ∧ i < 20 ∧
        (∀ c ∈ trim ((trim line).take i), isWs c = false) ∧
        (∃ c ∈ trim ((trim line).take i), isUpper c = true) ∧
        (∃ c ∈ trim ((trim line).take i), isDigitCh c = true) := by
  unfold parseLegendLine
  cases h : idxOfSub (trim line) legendSep with
  | none => simp [h]
  | some i =>
    simp only [h, Option.some.injEq]
    constructor
    · intro hs
      refine ⟨i, rfl, ?_⟩
      split at hs
      case isTrue h1 =>
        split at hs
        case isTrue h2 =>
          simp only [Bool.and_eq_true, decide_eq_true_eq] at h1
          simp only [Bool.and_eq_true, Bool.not_eq_true', List.any_eq_true,
            List.any_eq_false] at h2
          obtain ⟨⟨⟨hemp, hws⟩, hup⟩, hdig⟩ := h2
          exact ⟨h1.1, h1.2, fun c hc => by simpa using hws c hc, hup, hdig⟩
        case isFalse => simp at hs
      case isFalse => simp at hs
    · rintro ⟨j, hj, hj0, hj20, hws, hup, hdig⟩
      obtain rfl : i = j := by simpa using hj
      have hne : (trim ((trim line).take i)) ≠ [] := by
        rcases hup with ⟨c, hc, _⟩
        intro hnil
        rw [hnil] at hc
        cases hc
      rw [if_pos (by simp [hj0, hj20])]
      rw [if_pos (by
        simp only [Bool.and_eq_true, Bool.not_eq_true', List.any_eq_true,
          List.any_eq_false, List.isEmpty_eq_false]
        exact ⟨⟨⟨hne, fun c hc => by simp [hws c hc]⟩, hup⟩, hdig⟩)]
      rfl

theorem trim_as_rdropWhile (l : List Char) :
    trim l = List.rdropWhile isWs (l.dropWhile isWs) := by
  simp [trim, List.rdropWhile]

theorem dropWhile_eq_self_of_initial (p : Char → Bool) {l m : List Char}
    (hpre : m <+: l) (hl : l.dropWhile p = l) : m.dropWhile p = m := by
  cases m with
  | nil => rfl
  | cons c rest =>
    obtain ⟨t, ht⟩ := hpre
    have hc : p c = false := by
      by_contra hcon
      simp only [Bool.not_eq_false] at hcon
      rw [← ht, List.cons_append, List.dropWhile_cons_of_pos hcon] at hl
      have hlen := congrArg List.length hl
      have hle : (List.dropWhile p (rest ++ t)).length ≤ (rest ++ t).length :=
        (List.dropWhile_sublist p).length_le
      simp only [List.length_cons, List.length_append] at hlen hle
      omega
    exact List.dropWhile_cons_of_neg (by simp [hc])

theorem trim_trim (s : List Char) : trim (trim s) = trim s := by
  rw [trim_as_rdropWhile s, trim_as_rdropWhile]
  have hy : (s.dropWhile isWs).dropWhile isWs = s.dropWhile isWs :=
    List.dropWhile_idempotent isWs s
  rw [dropWhile_eq_self_of_initial isWs
    (List.rdropWhile_prefix isWs (s.dropWhile isWs)) hy]
  exact List.rdropWhile_idempotent isWs (s.dropWhile isWs)

theorem locateFirstNum_spec (d : Nat) (headers : List (List Char)) (i : Nat)
    (t : List Char) (h : locateFirstNum d headers = some (i, t)) :
    i < headers.length ∧ t = normalizeWs (headers.getD i []) ∧
    firstNumber (normalizeWs (headers.getD i [])) = some d ∧
    ∀ j, j < i → firstNumber (normalizeWs (headers.getD j [])) ≠ some d := by
  induction headers generalizing i t with
  | nil => cases h
  | cons hd tl ih =>
    rw [locateFirstNum] at h
    by_cases hm : firstNumber (normalizeWs hd) = some d
    · simp only [if_pos hm, Option.some.injEq, Prod.mk.injEq] at h
      obtain ⟨rfl, rfl⟩ := h
      exact ⟨by simp, rfl, hm, fun j hj => absurd hj (by omega)⟩
    · simp only [if_neg hm] at h
      cases hrec : locateFirstNum d tl with
      | none => rw [hrec] at h; cases h
      | some r =>
        obtain ⟨k, u⟩ := r
        rw [hrec] at h
        simp only [Option.map_some', Option.some.injEq, Prod.mk.injEq] at h
        obtain ⟨rfl, rfl⟩ := h
        obtain ⟨h1, h2, h3, h4⟩ := ih k u hrec
        refine ⟨by simpa using h1, by simpa using h2, by simpa using h3, ?_⟩
        intro j hj
        cases j with
        | zero => simpa using hm
        | succ jp => simpa using h4 jp (by omega)

theorem locateAnchor_spec (d : Nat) (headers : List (List Char)) (i : Nat)
    (t : List Char) (h : locateAnchor d headers = some (i, t)) :
    i < headers.length ∧ t = normalizeWs (headers.getD i []) ∧
    anchorDayTest d (trim (headers.getD i [])) = true ∧
    ∀ j, j < i → anchorDayTest d (trim (headers.getD j [])) = false := by
  induction headers generalizing i t with
  | nil => cases h
  | cons hd tl ih =>
    rw [locateAnchor] at h
    by_cases hm : anchorDayTest d (trim hd) = true
    · simp only [if_pos hm, Option.some.injEq, Prod.mk.injEq] at h
      obtain ⟨rfl, rfl⟩ := h
      refine ⟨by simp, ?_, hm, fun j hj => absurd hj (by omega)⟩
      simp only [List.getD_cons_zero, normalizeWs, trim_trim]
    · simp only [if_neg hm] at h
      cases hrec : locateAnchor d tl with
      | none => rw [hrec] at h; cases h
      | some r =>
        obtain ⟨k, u⟩ := r
        rw [hrec] at h
        simp only [Option.map_some', Option.some.injEq, Prod.mk.injEq] at h
        obtain ⟨rfl, rfl⟩ := h
        obtain ⟨h1, h2, h3, h4⟩ := ih k u hrec
        refine ⟨by simpa using h1, by simpa using h2, by simpa using h3, ?_⟩
        intro j hj
        cases j with
        | zero => simpa using hm
        | succ jp => simpa using h4 jp (by omega)

/-- C3: both date-column locator strategies return the index of the first,
leftmost matching header together with the whitespace-normalized stored
header text, and a header never matches on a mere substring occurrence of
the day digits: in the specification examples day 26 selects the header
named 26 Wed, and a header 126 does not match day 1. -/
theorem c3_date_column_locator :
    (∀ d headers i t, locateFirstNum d headers = some (i, t) →
      i < headers.length ∧ t = normalizeWs (headers.getD i []) ∧
      firstNumber (normalizeWs (headers.getD i [])) = some d ∧
      ∀ j, j < i → firstNumber (normalizeWs (headers.getD j [])) ≠ some d) ∧
    (∀ d headers i t, locateAnchor d headers = some (i, t) →
      i < headers.length ∧ t = normalizeWs (headers.getD i []) ∧
      anchorDayTest d (trim (headers.getD i [])) = true ∧
      ∀ j, j < i → anchorDayTest d (trim (headers.getD j [])) = false) ∧
    locateFirstNum 26
      ["Code".data, "1 Mon".data, "2 Tue".data, "26 Wed".data, "27 Thu".data] =
      some (3, "26 Wed".data) ∧
    locateAnchor 26
      ["Code".data, "1 Mon".data, "2 Tue".data, "26 Wed".data, "27 Thu".data] =
      some (3, "26 Wed".data) ∧
    locateFirstNum 1 ["126".data, "1 Mon".data] = some (1, "1 Mon".data) ∧
    locateAnchor 1 ["126".data, "1 Mon".data] = some (1, "1 Mon".data) ∧
    locateFirstNum 26 ["26\nWed".data] = some (0, "26 Wed".data) ∧
    locateAnchor 26 ["26\nWed".data] = some (0, "26 Wed".data) :=
  ⟨locateFirstNum_spec, locateAnchor_spec, by decide, by decide, by decide,
    by decide, by decide, by decide⟩

/-- Witness for C3: the leftmost-match property applied to the concrete
header row of the specification, for both strategies. -/
theorem c3_date_column_locator_witness :
    (3 < (["Code".data, "1 Mon".data, "2 Tue".data, "26 Wed".data,
        "27 Thu".data] : List (List Char)).length ∧
      "26 Wed".data = normalizeWs ((["Code".data, "1 Mon".data, "2 Tue".data,
        "26 Wed".data, "27 Thu".data] : List (List Char)).getD 3 []) ∧
      firstNumber (normalizeWs ((["Code".data, "1 Mon".data, "2 Tue".data,
        "26 Wed".data, "27 Thu".data] : List (List Char)).getD 3 [])) = some 26 ∧
      ∀ j, j < 3 → firstNumber (normalizeWs ((["Code".data, "1 Mon".data,
        "2 Tue".data, "26 Wed".data, "27 Thu".data] :
          List (List Char)).getD j [])) ≠ some 26) ∧
    (1 < (["126".data, "1 Mon".data] : List (List Char)).length ∧
      "1 Mon".data = normalizeWs ((["126".data, "1 Mon".data] :
        List (List Char)).getD 1 []) ∧
      anchorDayTest 1 (trim ((["126".data, "1 Mon".data] :
        List (List Char)).getD 1 [])) = true ∧
      ∀ j, j < 1 → anchorDayTest 1 (trim ((["126".data, "1 Mon".data] :
        List (List Char)).getD j [])) = false) :=
  ⟨c3_date_column_locator.1 26
      ["Code".data, "1 Mon".data, "2 Tue".data, "26 Wed".data, "27 Thu".data]
      3 "26 Wed".data (by decide),
    c3_date_column_locator.2.1 1 ["126".data, "1 Mon".data] 1 "1 Mon".data
      (by decide)⟩

/-- C2: the legend parser splits each cell on line breaks and accepts a line
exactly when the first occurrence of space-hyphen-space lies at an offset
strictly between 0 and 20 and the trimmed code has no whitespace, at least
one uppercase letter and at least one digit; accepted pairs are inserted last
write wins, rejected lines contribute nothing, the parser is total, and the
two concrete inputs of the specification produce exactly the stated maps. -/
theorem c2_legend_parsing :
    (∀ line, (parseLegendLine line).isSome = true ↔
      ∃ i, idxOfSub (trim line) legendSep = some i ∧ 0 < i ∧ i < 20 ∧
        (∀ c ∈ trim ((trim line).take i), isWs c = false) ∧
        (∃ c ∈ trim ((trim line).take i), isUpper c = true) ∧
        (∃ c ∈ trim ((trim line).take i), isDigitCh c = true)) ∧
    legendParse ["BAS-202 - Engg. Chemistry\nBIO-110 - Biology".data] =
      [("BAS-202".data, "Engg. Chemistry".data), ("BIO-110".data, "Biology".data)] ∧
    legendParse ["Legend - refer below".data] = [] ∧
    legendParse ["AB1 - first\nAB1 - second".data] = [("AB1".data, "second".data)] ∧
    legendParse [] = [] :=
  ⟨parseLegendLine_isSome, by decide, by decide, by decide, by decide⟩

/-- Witness for C2: the acceptance characterization applied to the concrete
legend line of the specification. -/
theorem c2_legend_parsing_witness :
    (parseLegendLine "BAS-202 - Engg. Chemistry".data).isSome = true :=
  (c2_legend_parsing.1 "BAS-202 - Engg. Chemistry".data).mpr
    ⟨7, by decide, by decide, by decide, by decide, ⟨'B', by decide, by decide⟩,
      ⟨'2', by decide, by decide⟩⟩

theorem scanRow_ragged (legend : List (List Char × List Char)) (idx : Nat)
    (cells : List (List Char)) (h : cells.length ≤ idx) :
    scanRow legend idx cells = none := by
  unfold scanRow
  rw [if_pos h]

theorem scanTable_filter (legend : List (List Char × List Char)) (idx : Nat)
    (rows : List (List (List Char))) :
    scanTable legend idx (rows.filter (fun r => decide (idx < r.length))) =
      scanTable legend idx rows := by
  induction rows with
  | nil => rfl
  | cons r rs ih =>
    simp only [scanTable] at ih ⊢
    rw [List.filter_cons]
    by_cases hr : idx < r.length
    · rw [if_pos (by simpa using hr), List.filterMap_cons, List.filterMap_cons, ih]
    · rw [if_neg (by simpa using hr), List.filterMap_cons,
        scanRow_ragged legend idx r (by omega), ih]

theorem scanRow_stoplisted (legend : List (List Char × List Char)) (idx : Nat)
    (cells : List (List Char))
    (h : trim (cells.getD 0 []) = [] ∨
      strContains (trim (cells.getD 0 [])) "Total".data = true ∨
      strContains (trim (cells.getD 0 [])) "Legend".data = true ∨
      strContains (trim (cells.getD 0 [])) "G.".data = true) :
    scanRow legend idx cells = none := by
  unfold scanRow
  by_cases hlen : cells.length ≤ idx
  · rw [if_pos hlen]
  · rw [if_neg hlen]
    have hstop : stoplisted (trim (cells.getD 0 [])) = true := by
      unfold stoplisted
      rcases h with h | h | h | h
      · rw [h]; rfl
      · rw [h]; simp
      · rw [h]; simp
      · rw [h]; simp
    rw [if_pos hstop]

theorem scanTable_append (legend : List (List Char × List Char)) (idx : Nat)
    (rows1 rows2 : List (List (List Char))) :
    scanTable legend idx (rows1 ++ rows2) =
      scanTable legend idx rows1 ++ scanTable legend idx rows2 := by
  simp [scanTable, List.filterMap_append]

theorem scanTable_mid (legend : List (List Char × List Char)) (idx : Nat)
    (rows1 rows2 : List (List (List Char))) (r : List (List Char))
    (v : List Char × List Char) (h : scanRow legend idx r = some v) :
    scanTable legend idx (rows1 ++ r :: rows2) =
      scanTable legend idx rows1 ++ v :: scanTable legend idx rows2 := by
  simp [scanTable, List.filterMap_append, List.filterMap_cons, h]

theorem scanTable_mid_none (legend : List (List Char × List Char)) (idx : Nat)
    (rows1 rows2 : List (List (List Char))) (r : List (List Char))
    (h : scanRow legend idx r = none) :
    scanTable legend idx (rows1 ++ r :: rows2) =
      scanTable legend idx rows1 ++ scanTable legend idx rows2 := by
  simp [scanTable, List.filterMap_append, List.filterMap_cons, h]

theorem lookupOr_eq_of_none (m : List (List Char × List Char)) (code : List Char)
    (h : mapLookup m code = none) : lookupOr m code = code := by
  unfold lookupOr
  rw [h]

theorem lookupOr_eq_of_some (m : List (List Char × List Char)) (code v : List Char)
    (h : mapLookup m code = some v) :
    lookupOr m code = if v.isEmpty then code else v := by
  unfold lookupOr
  rw [h]

theorem lookupOr_ne_nil (m : List (List Char × List Char)) (code : List Char)
    (h : code ≠ []) : lookupOr m code ≠ [] := by
  cases hm : mapLookup m code with
  | none => rw [lookupOr_eq_of_none m code hm]; exact h
  | some w =>
    rw [lookupOr_eq_of_some m code w hm]
    split
    · exact h
    · rename_i hw
      simp only [List.isEmpty_iff] at hw
      exact hw

theorem scanRow_eq_some (legend : List (List Char × List Char)) (idx : Nat)
    (cells : List (List Char)) (c n : List Char)
    (h : scanRow legend idx cells = some (c, n)) :
    c = trim (cells.getD 0 []) ∧ n = lookupOr legend c := by
  simp only [scanRow] at h
  split at h
  · cases h
  · split at h
    · cases h
    · split at h
      · simp only [Option.some.injEq, Prod.mk.injEq] at h
        obtain ⟨rfl, rfl⟩ := h
        exact ⟨rfl, rfl⟩
      · cases h

/-- C4: a data row with fewer cells than todayColIndex plus one is skipped,
contributing no absence record, the scanner is insensitive to deleting all
such ragged rows, and scanning is a total function of the row shapes. -/
theorem c4_ragged_row_tolerance (legend : List (List Char × List Char))
    (idx : Nat) (rows : List (List (List Char))) (cells : List (List Char))
    (h : cells.length < idx + 1) :
    scanRow legend idx cells = none ∧
    scanTable legend idx (rows.filter (fun r => decide (idx < r.length))) =
      scanTable legend idx rows :=
  ⟨scanRow_ragged legend idx cells (by omega), scanTable_filter legend idx rows⟩

/-- Witness for C4: a two-cell row under column index five is skipped. -/
theorem c4_ragged_row_tolerance_witness :
    scanRow [] 5 ["BAS-202".data, "A".data] = none ∧
    scanTable [] 5 ([[ "BAS-202".data, "A".data ]].filter
      (fun r => decide (5 < r.length))) =
      scanTable [] 5 [[ "BAS-202".data, "A".data ]] :=
  c4_ragged_row_tolerance [] 5 [[ "BAS-202".data, "A".data ]]
    ["BAS-202".data, "A".data] (by decide)

/-- C5: a data row whose trimmed cell-zero text is empty or contains Total,
Legend or G dot as a substring is excluded from the result even when its
status cell would classify absent, and every row that produces an absence
record appears in the result in table row order. -/
theorem c5_stoplist_guard (legend : List (List Char × List Char)) (idx : Nat)
    (cells : List (List Char))
    (h : trim (cells.getD 0 []) = [] ∨
      strContains (trim (cells.getD 0 [])) "Total".data = true ∨
      strContains (trim (cells.getD 0 [])) "Legend".data = true ∨
      strContains (trim (cells.getD 0 [])) "G.".data = true) :
    scanRow legend idx cells = none ∧
    (∀ rows1 rows2, scanTable legend idx (rows1 ++ cells :: rows2) =
      scanTable legend idx rows1 ++ scanTable legend idx rows2) ∧
    (∀ rows1 rows2 r v, scanRow legend idx r = some v →
      scanTable legend idx (rows1 ++ r :: rows2) =
        scanTable legend idx rows1 ++ v :: scanTable legend idx rows2) :=
  ⟨scanRow_stoplisted legend idx cells h,
    fun rows1 rows2 => scanTable_mid_none legend idx rows1 rows2 cells
      (scanRow_stoplisted legend idx cells h),
    fun rows1 rows2 r v hv => scanTable_mid legend idx rows1 rows2 r v hv⟩

/-- Witness for C5: the summary row G dot Total with an absent status cell is
excluded. -/
theorem c5_stoplist_guard_witness :
    scanRow [] 1 ["G. Total".data, "A".data] = none :=
  (c5_stoplist_guard [] 1 ["G. Total".data, "A".data]
    (Or.inr (Or.inl (by decide)))).1

/-- C10: the display name of an absence record is the legend entry when that
entry is a nonempty string and the bare subject code when the entry is
missing or empty, so the name is nonempty whenever the code is. -/
theorem c10_name_fallback (m : List (List Char × List Char))
    (code v : List Char) :
    (mapLookup m code = some v → v ≠ [] → lookupOr m code = v) ∧
    (mapLookup m code = none → lookupOr m code = code) ∧
    (mapLookup m code = some [] → lookupOr m code = code) ∧
    (code ≠ [] → lookupOr m code ≠ []) ∧
    (∀ legend idx cells c n, scanRow legend idx cells = some (c, n) →
      n = lookupOr legend c ∧ (c ≠ [] → n ≠ [])) := by
  refine ⟨?_, ?_, ?_, lookupOr_ne_nil m code, ?_⟩
  · intro h hv
    rw [lookupOr_eq_of_some m code v h]
    rw [if_neg (by simpa [List.isEmpty_iff] using hv)]
  · exact lookupOr_eq_of_none m code
  · intro h
    rw [lookupOr_eq_of_some m code [] h]
    rfl
  · intro legend idx cells c n h
    obtain ⟨hc, hn⟩ := scanRow_eq_some legend idx cells c n h
    exact ⟨hn, fun hcne => hn ▸ lookupOr_ne_nil legend c hcne⟩

/-- Witness for C10: a legend that maps the code to the empty string falls
back to the bare code. -/
theorem c10_name_fallback_witness :
    lookupOr [("AB1".data, [])] "AB1".data = "AB1".data :=
  (c10_name_fallback [("AB1".data, [])] "AB1".data []).2.2.1 (by decide)

theorem run_shape (env : Env) :
    (∃ msgs pa ps shot desc, run env = failResult env msgs pa ps shot desc) ∨
    (∃ msgs pa ps shot, run env = okResult msgs pa ps shot) := by
  unfold run notifyPhase
  dsimp only
  repeat' split
  all_goals first
    | exact Or.inl ⟨_, _, _, _, _, rfl⟩
    | exact Or.inr ⟨_, _, _, _, rfl⟩

theorem failResult_getLast (env : Env) (msgs : List (List Char)) (pa ps : Nat)
    (shot : Bool) (desc : List Char) (he : env.errSendOk = true) :
    (failResult env msgs pa ps shot desc).sentMessages.getLast? =
      some (errorMessage desc env.timeStr) := by
  simp [failResult, he]

theorem errorMessage_contains (desc time : List Char) :
    desc <:+: errorMessage desc time ∧ time <:+: errorMessage desc time := by
  constructor
  · exact ⟨"🔴 <b>Bot Error!</b>\n\n<code>".data,
      "</code>\n\n⏰ ".data ++ time, by simp [errorMessage]⟩
  · exact ⟨"🔴 <b>Bot Error!</b>\n\n<code>".data ++ desc ++ "</code>\n\n⏰ ".data,
      [], by simp [errorMessage]⟩

theorem run_benign (env : Env)
    (hf : env.failAt = none)
    (hl : locateFirstNum env.today env.headerCells = none) :
    run env = okResult [] 0 0 false := by
  unfold run
  rw [hf]
  dsimp only
  rw [hl]

theorem scanRow_not_absent (legend : List (List Char × List Char)) (idx : Nat)
    (cells : List (List Char))
    (h : classifyAbsent (trim (cells.getD idx [])) = false) :
    scanRow legend idx cells = none := by
  unfold scanRow
  dsimp only
  split
  · rfl
  · split
    · rfl
    · rw [if_neg (by rw [h]; simp)]

theorem scanTable_no_absent (legend : List (List Char × List Char)) (idx : Nat)
    (rows : List (List (List Char)))
    (h : ∀ cells ∈ rows, classifyAbsent (trim (cells.getD idx [])) = false) :
    scanTable legend idx rows = [] := by
  induction rows with
  | nil => rfl
  | cons r rs ih =>
    simp only [scanTable, List.filterMap_cons,
      scanRow_not_absent legend idx r (h r (by simp))]
    exact ih (fun cells hc => h cells (by simp [hc]))

theorem run_all_present (env : Env) (idx : Nat) (hdr : List Char)
    (hf : env.failAt = none)
    (hl : locateFirstNum env.today env.headerCells = some (idx, hdr))
    (hrows : ∀ cells ∈ env.rows.drop 1,
      classifyAbsent (trim (cells.getD idx [])) = false)
    (ht : env.textSendOk = true) :
    run env = okResult [allPresentMessage hdr env.timeStr] 0 0 true := by
  have habs : scanTable (legendParse env.legendCells) idx (env.rows.drop 1) = [] :=
    scanTable_no_absent (legendParse env.legendCells) idx (env.rows.drop 1) hrows
  unfold run
  rw [hf]
  dsimp only
  rw [hl]
  dsimp only
  rw [habs]
  unfold notifyPhase
  rw [if_pos (by simp), if_pos ht]

theorem notifyPhase_photo (env : Env) (hdr : List Char)
    (absents : List (List Char × List Char)) :
    (notifyPhase env hdr absents).photoAttempts ≤ 1 ∧
    ((notifyPhase env hdr absents).photoAttempts = 1 →
      env.textSendOk = true ∧ absents ≠ [] ∧
      (notifyPhase env hdr absents).sentMessages.head? =
        some (alertMessage hdr env.timeStr absents)) := by
  unfold notifyPhase
  split
  · split
    · exact ⟨by simp [okResult], fun h => by simp [okResult] at h⟩
    · exact ⟨by simp [failResult], fun h => by simp [failResult] at h⟩
  · rename_i hne
    split
    · rename_i ht
      split
      · exact ⟨by simp [okResult], fun hp =>
          ⟨ht, by simpa [List.isEmpty_iff] using hne, by simp [okResult]⟩⟩
      · refine ⟨by simp [failResult], fun hp =>
          ⟨ht, by simpa [List.isEmpty_iff] using hne, ?_⟩⟩
        simp [failResult]
    · exact ⟨by simp [failResult], fun h => by simp [failResult] at h⟩

theorem run_photo (env : Env) :
    (run env).photoAttempts ≤ 1 ∧
    ((run env).photoAttempts = 1 → env.textSendOk = true ∧
      ∃ idx hdr, locateFirstNum env.today env.headerCells = some (idx, hdr) ∧
        scanTable (legendParse env.legendCells) idx (env.rows.drop 1) ≠ [] ∧
        (run env).sentMessages.head? = some (alertMessage hdr env.timeStr
          (scanTable (legendParse env.legendCells) idx (env.rows.drop 1)))) := by
  unfold run
  dsimp only
  split
  · exact ⟨by simp [failResult], fun h => by simp [failResult] at h⟩
  · exact ⟨by simp [failResult], fun h => by simp [failResult] at h⟩
  · exact ⟨by simp [failResult], fun h => by simp [failResult] at h⟩
  · exact ⟨by simp [failResult], fun h => by simp [failResult] at h⟩
  · exact ⟨by simp [failResult], fun h => by simp [failResult] at h⟩
  · split
    · exact ⟨by simp [okResult], fun h => by simp [okResult] at h⟩
    · rename_i idx hdr heq
      split
      · exact ⟨by simp [failResult], fun h => by simp [failResult] at h⟩
      · split
        · exact ⟨by simp [failResult], fun h => by simp [failResult] at h⟩
        · obtain ⟨h1, h2⟩ := notifyPhase_photo env hdr
            (scanTable (legendParse env.legendCells) idx (env.rows.drop 1))
          exact ⟨h1, fun hp =>
            ⟨(h2 hp).1, idx, hdr, heq, (h2 hp).2.1, (h2 hp).2.2⟩⟩

/-- C6: when no exception is injected and the date-column locator finds no
column for today, the run terminates as a clean non-error success: exit code
zero, no messages sent, no photo, no error notification, no screenshot, no
caught exception, and the browser closed. -/
theorem c6_no_column_benign_exit (env : Env)
    (hf : env.failAt = none)
    (hl : locateFirstNum env.today env.headerCells = none) :
    (run env).exitCode = 0 ∧ (run env).sentMessages = [] ∧
    (run env).photoAttempts = 0 ∧ (run env).sentPhotos = 0 ∧
    (run env).errNotifyAttempts = 0 ∧ (run env).screenshotTaken = false ∧
    (run env).caughtError = none ∧ (run env).browserClosed = true := by
  rw [run_benign env hf hl]
  exact ⟨rfl, rfl, rfl, rfl, rfl, rfl, rfl, rfl⟩

/-- Witness for C6: a header row without a column for day one. -/
theorem c6_no_column_benign_exit_witness :
    (run ⟨none, true, true, true, [], [], [], ["Code".data], [], 1, []⟩).exitCode
      = 0 :=
  (c6_no_column_benign_exit
    ⟨none, true, true, true, [], [], [], ["Code".data], [], 1, []⟩
    rfl (by decide)).1

/-- C7: every exception that reaches the catch block results in exactly one
best-effort error notification whose text carries the error description and
the timestamp, a failure of that notification is swallowed without a retry,
and the process exits with code one. -/
theorem c7_error_notification (env : Env) (d : List Char)
    (h : (run env).caughtError = some d) :
    (run env).exitCode = 1 ∧
    (run env).errNotifyAttempts = 1 ∧
    (env.errSendOk = true →
      (run env).sentMessages.getLast? = some (errorMessage d env.timeStr)) ∧
    d <:+: errorMessage d env.timeStr ∧
    env.timeStr <:+: errorMessage d env.timeStr := by
  rcases run_shape env with ⟨msgs, pa, ps, shot, desc, hr⟩ | ⟨msgs, pa, ps, shot, hr⟩
  · rw [hr] at h ⊢
    have hd : desc = d := by simpa [failResult] using h
    subst hd
    exact ⟨rfl, rfl, failResult_getLast env msgs pa ps shot desc,
      (errorMessage_contains desc env.timeStr).1,
      (errorMessage_contains desc env.timeStr).2⟩
  · rw [hr] at h
    simp [okResult] at h

/-- Witness for C7: an exception injected at the login stage. -/
theorem c7_error_notification_witness :
    (run ⟨some (Stage.login, "boom".data), true, true, true, [], [], [],
      [], [], 1, []⟩).exitCode = 1 :=
  (c7_error_notification
    ⟨some (Stage.login, "boom".data), true, true, true, [], [], [], [], [], 1, []⟩
    "boom".data (by decide)).1

/-- C8: evaluation at a failing input: when the attendance frame is not
found, the catch block runs process.exit(1), which terminates the process
before the finally clause, so the browser is not closed on the failure path,
although the success and benign paths do close it. -/
theorem c8_browser_not_closed_on_failure :
    (run ⟨some (Stage.navigate, "Attendance frame not found".data),
      true, true, true, [], [], [], [], [], 26, []⟩).exitCode = 1 ∧
    (run ⟨some (Stage.navigate, "Attendance frame not found".data),
      true, true, true, [], [], [], [], [], 26, []⟩).browserClosed = false ∧
    (run ⟨none, true, true, true, [], [], [], ["Code".data], [], 1,
      []⟩).browserClosed = true ∧
    (run ⟨none, true, true, true, [], [], [], ["1 Mon".data], [], 1,
      []⟩).browserClosed = true := by
  decide

/-- C9: the photo send is attempted at most once, only after a successful
absence-alert text send and only when the computed absence list is nonempty,
and a run whose today-column statuses are all non-absent sends exactly the
all-present message with no photo and exits cleanly. -/
theorem c9_photo_only_after_alert (env env2 : Env) (idx : Nat) (hdr : List Char)
    (hf : env2.failAt = none)
    (hl : locateFirstNum env2.today env2.headerCells = some (idx, hdr))
    (hrows : ∀ cells ∈ env2.rows.drop 1,
      classifyAbsent (trim (cells.getD idx [])) = false)
    (ht : env2.textSendOk = true) :
    ((run env).photoAttempts ≤ 1) ∧
    ((run env).photoAttempts = 1 → env.textSendOk = true ∧
      ∃ i h2, locateFirstNum env.today env.headerCells = some (i, h2) ∧
        scanTable (legendParse env.legendCells) i (env.rows.drop 1) ≠ [] ∧
        (run env).sentMessages.head? = some (alertMessage h2 env.timeStr
          (scanTable (legendParse env.legendCells) i (env.rows.drop 1)))) ∧
    (run env2).sentMessages = [allPresentMessage hdr env2.timeStr] ∧
    (run env2).photoAttempts = 0 ∧ (run env2).sentPhotos = 0 ∧
    (run env2).exitCode = 0 := by
  obtain ⟨h1, h2⟩ := run_photo env
  have h3 := run_all_present env2 idx hdr hf hl hrows ht
  rw [h3]
  exact ⟨h1, h2, rfl, rfl, rfl, rfl⟩

/-- Witness for C9: an all-present table sends the all-present message. -/
theorem c9_photo_only_after_alert_witness :
    (run ⟨none, true, true, true, [], [], [], ["1 Mon".data],
      [["hdr".data], ["X1".data, "P".data]], 1, []⟩).sentMessages =
      [allPresentMessage "1 Mon".data []] :=
  (c9_photo_only_after_alert
    ⟨none, true, true, true, [], [], [], ["1 Mon".data],
      [["hdr".data], ["X1".data, "P".data]], 1, []⟩
    ⟨none, true, true, true, [], [], [], ["1 Mon".data],
      [["hdr".data], ["X1".data, "P".data]], 1, []⟩
    0 "1 Mon".data rfl (by decide) (by decide) rfl).2.2.1

end AttendanceBot
